import Mathlib

/-!
Verification of the keyword-to-content pipeline (src/app.py and
src/gemini_content_generator.py).

The development shallowly embeds the core of the program:
record-collection operations (filter / remove / reorder), the identifier
validators, the hierarchy builder, the JSON response repair pipeline
(modelling the strict parser of the Python json module), the FAQ retry
policy, and the FAQ-schema extractor.  Python strings are modelled as
`List Char` (with decoded JSON strings as `List Nat` of code points, since
Python strings may hold lone surrogates), Python ints as `Int`, floats
(which no verified claim reads) as `Rat`.
-/

/-- Named characters, used where a literal would be awkward in source. -/
def quoteChar : Char := Char.ofNat 34

def squoteChar : Char := Char.ofNat 39

def lbrace : Char := Char.ofNat 123

def rbrace : Char := Char.ofNat 125

def lbrack : Char := Char.ofNat 91

def rbrack : Char := Char.ofNat 93

def backslashChar : Char := Char.ofNat 92

/-- Whitespace class of the Python re module shorthand and of str.strip
(ASCII part): space, tab, newline, carriage return, vertical tab, form feed. -/
def isPyWs (c : Char) : Bool :=
  c == ' ' || c == '\t' || c == '\n' || c == '\r' || c == '\x0b' || c == '\x0c'

/-- Models str.strip(): drop leading and trailing whitespace. -/
def pyStrip (cs : List Char) : List Char :=
  ((cs.dropWhile isPyWs).reverse.dropWhile isPyWs).reverse

/-- Case-sensitive literal match of a pattern at the head of a list. -/
def listStartsWith : List Char → List Char → Bool
  | [], _ => true
  | _ :: _, [] => false
  | p :: ps, c :: cs => p == c && listStartsWith ps cs

/-! ## Record model (app.py upload loop, lines 400-409)

A keyword record as produced at ingestion; `parent_id` is attached later by
the frontend for H3 records.  Floats (difficulty, cpc) are modelled as
rationals; no operation verified here reads them. -/

structure KeywordRecord where
  id : Int
  keyword : String
  volume : Int
  intent : String
  difficulty : Rat
  cpc : Rat
  tag : String
  order : Int
  parent_id : Option Int
deriving DecidableEq

/-- Forget the order field, to state order-independent content equality. -/
def clearOrder (kw : KeywordRecord) : KeywordRecord := { kw with order := 0 }

/-- Models the Python loop `for i, kw in enumerate(lst): kw[ofield] = i`
(app.py lines 446-447 and 491-492), starting the counter at `n`. -/
def resequenceFrom (n : Nat) : List KeywordRecord → List KeywordRecord
  | [] => []
  | kw :: rest => { kw with order := Int.ofNat n } :: resequenceFrom (n + 1) rest

/-- Core of the /remove_keyword endpoint (app.py lines 477-494): drop every
record carrying the given id, then repack order to 0..N-1.  The result is the
new process-wide current_data (the endpoint reassigns the global). -/
def remove_keyword (data : List KeywordRecord) (keyword_id : Int) : List KeywordRecord :=
  resequenceFrom 0 (data.filter (fun kw => kw.id != keyword_id))

/-- Models the dict comprehension keyword_map (app.py line 507): when two
records share an id the later one overwrites the earlier, so lookup returns
the last record with the given id. -/
def lookupId (data : List KeywordRecord) (i : Int) : Option KeywordRecord :=
  data.reverse.find? (fun kw => kw.id == i)

/-- Loop of /reorder (app.py lines 510-514): the enumerate counter `n`
advances on every id of new_order, including ids absent from the map. -/
def reorderFrom (data : List KeywordRecord) (n : Nat) : List Int → List KeywordRecord
  | [] => []
  | kid :: rest =>
    match lookupId data kid with
    | some kw => { kw with order := Int.ofNat n } :: reorderFrom data (n + 1) rest
    | none => reorderFrom data (n + 1) rest

/-- Core of the /reorder endpoint (app.py lines 496-518).  The result is the
new process-wide current_data (the endpoint reassigns the global). -/
def reorder_keywords (data : List KeywordRecord) (new_order : List Int) : List KeywordRecord :=
  reorderFrom data 0 new_order

/-- In-place order mutation performed by the /filter endpoint (app.py lines
443-447) on the records of the process-wide collection: the k-th record that
passes the volume floor gets order k; records below the floor are untouched.
This is the state of current_data after the request, because the endpoint
mutates the shared record dicts but never reassigns current_data itself. -/
def applyFilterOrders (min_volume : Int) (n : Nat) : List KeywordRecord → List KeywordRecord
  | [] => []
  | kw :: rest =>
    if min_volume ≤ kw.volume then
      { kw with order := Int.ofNat n } :: applyFilterOrders min_volume (n + 1) rest
    else kw :: applyFilterOrders min_volume n rest

/-- Core of the /filter endpoint (app.py lines 427-453).  First component:
the state of the process-wide current_data after the request (orders of the
qualifying records mutated in place, nothing removed, global not
reassigned).  Second component: the filtered, re-sequenced list returned in
the response. -/
def filter_keywords (data : List KeywordRecord) (min_volume : Int) :
    List KeywordRecord × List KeywordRecord :=
  (applyFilterOrders min_volume 0 data,
   resequenceFrom 0 (data.filter (fun kw => decide (min_volume ≤ kw.volume))))

/-! ## Hierarchy builder (app.py lines 611-643 and 817-848)

Both download_json and generate_content partition the flat collection by
tag, sort each partition by order with Python sort (a stable sort, modelled
by List.mergeSort), and nest each H3 under every H2 whose id equals the H3
parent_id. -/

/-- Boolean comparison used for the Python `sort(key=lambda x: x[oid])`. -/
def orderLe (a b : KeywordRecord) : Bool := decide (a.order ≤ b.order)

/-- Stable sort by the order field, modelling Python list.sort with an
order key. -/
def sortByOrder (l : List KeywordRecord) : List KeywordRecord := l.mergeSort orderLe

/-- Partition step `[kw for kw in data if kw[tagfield] == t]`. -/
def tagged (t : String) (data : List KeywordRecord) : List KeywordRecord :=
  data.filter (fun kw => kw.tag == t)

/-- Inner loop of the builder: the H3 records whose parent_id equals the id
of the given H2 record, in the order they occur in the sorted H3 list. -/
def h3Children (h3s : List KeywordRecord) (h2 : KeywordRecord) : List KeywordRecord :=
  h3s.filter (fun h3 => h3.parent_id == some h2.id)

/-- Record-level hierarchy: one entry per H2 record (sorted by order), each
paired with its list of H3 children (app.py lines 626-643 / 831-848). -/
def build_h2_entries (data : List KeywordRecord) : List (KeywordRecord × List KeywordRecord) :=
  (sortByOrder (tagged "H2" data)).map
    (fun h2 => (h2, h3Children (sortByOrder (tagged "H3" data)) h2))

/-- Nested H3 entry of the produced document. -/
structure H3Entry where
  keyword : String
  paragraphs : List String
  bullets : List String
deriving DecidableEq

/-- Nested H2 entry of the produced document. -/
structure H2Entry where
  keyword : String
  paragraphs : List String
  bullets : List String
  h3_keywords : List H3Entry
deriving DecidableEq

/-- Body of the structured document assembled before the generation call. -/
structure BodyDoc where
  h1_keywords : List String
  h2_keywords : List H2Entry
  faqs_html : List String
deriving DecidableEq

/-- String-level document body built from the flat collection (app.py lines
611-643): untagged records are filtered away by the three `tagged` calls. -/
def build_body (data : List KeywordRecord) : BodyDoc :=
  { h1_keywords := (sortByOrder (tagged "H1" data)).map (fun kw => kw.keyword)
    h2_keywords := (build_h2_entries data).map
      (fun e =>
        { keyword := e.1.keyword
          paragraphs := []
          bullets := []
          h3_keywords := e.2.map
            (fun h3 => { keyword := h3.keyword, paragraphs := [], bullets := [] }) })
    faqs_html := [] }

/-! ## Identifier validators (app.py lines 38-109) -/

/-- Models `re.sub(r'\s+', '-', h)`: every maximal whitespace run becomes a
single hyphen.  The Boolean flag records whether the previous character was
part of a whitespace run. -/
def subWsRunsAux : Bool → List Char → List Char
  | _, [] => []
  | inRun, c :: cs =>
    if isPyWs c then
      if inRun then subWsRunsAux true cs else '-' :: subWsRunsAux true cs
    else c :: subWsRunsAux false cs

/-- Whitespace runs to single hyphens (app.py line 55). -/
def subWsRuns (cs : List Char) : List Char := subWsRunsAux false cs

/-- Character class of the handle regex `^[a-z0-9-]+$`. -/
def isHandleChar (c : Char) : Bool := c.isLower || c.isDigit || c == '-'

/-- Substring test for two consecutive hyphens (app.py line 66). -/
def hasDoubleHyphen : List Char → Bool
  | c1 :: c2 :: rest => (c1 == '-' && c2 == '-') || hasDoubleHyphen (c2 :: rest)
  | _ => false

/-- The normalization validate_handle applies before its checks:
strip, lowercase, whitespace runs to hyphens. -/
def normalizeHandle (handle : String) : List Char :=
  subWsRuns ((pyStrip handle.data).map Char.toLower)

/-- validate_handle (app.py lines 38-69), returning the Python pair
(ok, normalized-or-message).  The emptiness check runs on the stripped,
lowercased text, before the whitespace substitution, exactly as in the
source; the later checks run on the fully normalized text. -/
def validate_handle (handle : String) : Bool × String :=
  if handle = "" then (false, "Handle must be a non-empty string")
  else if (pyStrip handle.data).map Char.toLower = [] then (false, "Handle cannot be empty")
  else if (normalizeHandle handle).isEmpty || !((normalizeHandle handle).all isHandleChar) then
    (false, "Handle can only contain lowercase letters, numbers, and hyphens")
  else if (normalizeHandle handle).head? == some '-'
      || (normalizeHandle handle).getLast? == some '-' then
    (false, "Handle cannot start or end with a hyphen")
  else if hasDoubleHyphen (normalizeHandle handle) then
    (false, "Handle cannot contain consecutive hyphens")
  else (true, String.mk (normalizeHandle handle))

/-- Specification-shaped acceptance predicate for a normalized handle:
nonempty, only [a-z0-9-], no hyphen at either end, no double hyphen. -/
def handleOk (h2 : List Char) : Bool :=
  !(h2.isEmpty || !(h2.all isHandleChar))
  && !(h2.head? == some '-' || h2.getLast? == some '-')
  && !hasDoubleHyphen h2

/-- Models `re.sub(r'-+', ' ', h)`: every maximal hyphen run becomes a
single space. -/
def subHyphenRunsAux : Bool → List Char → List Char
  | _, [] => []
  | inRun, c :: cs =>
    if c == '-' then
      if inRun then subHyphenRunsAux true cs else ' ' :: subHyphenRunsAux true cs
    else c :: subHyphenRunsAux false cs

/-- Handle-to-tag synchronization (app.py line 90): hyphen runs to single
spaces, then strip. -/
def handleWithSpaces (h : String) : List Char := pyStrip (subHyphenRunsAux false h.data)

/-- Models str.split(sep) for a single comma separator. -/
def splitOnComma : List Char → List (List Char)
  | [] => [[]]
  | c :: cs =>
    if c == ',' then [] :: splitOnComma cs
    else
      match splitOnComma cs with
      | [] => [[c]]
      | g :: gs => (c :: g) :: gs

/-- Character class of the tag regex `^[a-zA-Z0-9\s]+$` (ASCII part). -/
def isTagChar (c : Char) : Bool := c.isAlpha || c.isDigit || isPyWs c

/-- Models str.join with separator comma-space. -/
def joinCommaSpace : List (List Char) → List Char
  | [] => []
  | [t] => t
  | t :: ts => t ++ ',' :: ' ' :: joinCommaSpace ts

/-- The comma-list branch of validate_tags (app.py lines 94-109): split on
commas, strip tokens, drop empties, require at least one token, require every
token to contain only letters, digits and whitespace, rejoin.  The Python
failure message for a bad token interpolates the token; since no verified
claim reads that message, a fixed message stands in for it. -/
def tagListResult (t : List Char) : Bool × String :=
  let tag_list := ((splitOnComma t).map pyStrip).filter (fun tag => !tag.isEmpty)
  if tag_list.isEmpty then (false, "At least one valid tag is required")
  else if tag_list.all (fun tag => tag.all isTagChar) then
    (true, String.mk (joinCommaSpace tag_list))
  else (false, "Tag contains invalid characters. Only letters, numbers, and spaces are allowed")

/-- validate_tags (app.py lines 71-109).  A `some h` handle argument with
nonempty h is truthy in Python; `none` or `some ""` falls through to the
comma-list branch.  Note the emptiness checks on tags run before the handle
branch. -/
def validate_tags (tags : String) (handle : Option String) : Bool × String :=
  if tags = "" then (false, "Tags must be a non-empty string")
  else if pyStrip tags.data = [] then (false, "Tags cannot be empty")
  else
    match handle with
    | some h =>
      if h ≠ "" then (true, String.mk (handleWithSpaces h))
      else tagListResult (pyStrip tags.data)
    | none => tagListResult (pyStrip tags.data)

/-! ## JSON model and strict parser

Models Python json.loads on the accept/reject level and on the produced
value structure.  Object pairs are kept as a list; lookup takes the last
binding, matching dict overwrite semantics.  Decoded strings are lists of
code points (Python strings may hold lone surrogates, which Lean Char
cannot).  Numbers keep their lexeme; nothing verified reads them. -/

inductive Json where
  | null : Json
  | bool : Bool → Json
  | num : List Char → Json
  | str : List Nat → Json
  | arr : List Json → Json
  | obj : List (List Nat × Json) → Json

/-- Whitespace skipped between JSON tokens (exactly the four characters the
Python json scanner skips). -/
def skipWs (cs : List Char) : List Char :=
  cs.dropWhile (fun c => c == ' ' || c == '\t' || c == '\n' || c == '\r')

/-- Value of a hexadecimal digit. -/
def hexVal (c : Char) : Option Nat :=
  if 48 ≤ c.toNat && c.toNat ≤ 57 then some (c.toNat - 48)
  else if 97 ≤ c.toNat && c.toNat ≤ 102 then some (c.toNat - 87)
  else if 65 ≤ c.toNat && c.toNat ≤ 70 then some (c.toNat - 55)
  else none

/-- JSON string body scanner (after the opening quote), strict mode: raw
control characters are rejected, escapes are decoded, a high/low surrogate
escape pair is combined as Python does, a lone surrogate escape is kept. -/
def parseStringAux : Nat → List Char → List Nat → Option (List Nat × List Char)
  | 0, _, _ => none
  | _ + 1, [], _ => none
  | fuel + 1, c :: cs, acc =>
    if c == quoteChar then some (acc.reverse, cs)
    else if c == backslashChar then
      match cs with
      | [] => none
      | e :: cs2 =>
        if e == quoteChar then parseStringAux fuel cs2 (34 :: acc)
        else if e == backslashChar then parseStringAux fuel cs2 (92 :: acc)
        else if e == '/' then parseStringAux fuel cs2 (47 :: acc)
        else if e == 'b' then parseStringAux fuel cs2 (8 :: acc)
        else if e == 'f' then parseStringAux fuel cs2 (12 :: acc)
        else if e == 'n' then parseStringAux fuel cs2 (10 :: acc)
        else if e == 'r' then parseStringAux fuel cs2 (13 :: acc)
        else if e == 't' then parseStringAux fuel cs2 (9 :: acc)
        else if e == 'u' then
          match cs2 with
          | h1 :: h2 :: h3 :: h4 :: cs3 =>
            match hexVal h1, hexVal h2, hexVal h3, hexVal h4 with
            | some a, some b, some c3, some d =>
              let n := ((a * 16 + b) * 16 + c3) * 16 + d
              if 55296 ≤ n && n ≤ 56319 then
                match cs3 with
                | e2 :: u2 :: g1 :: g2 :: g3 :: g4 :: cs4 =>
                  if e2 == backslashChar && u2 == 'u' then
                    match hexVal g1, hexVal g2, hexVal g3, hexVal g4 with
                    | some a2, some b2, some c2, some d2 =>
                      let m := ((a2 * 16 + b2) * 16 + c2) * 16 + d2
                      if 56320 ≤ m && m ≤ 57343 then
                        parseStringAux fuel cs4
                          ((65536 + (n - 55296) * 1024 + (m - 56320)) :: acc)
                      else parseStringAux fuel cs3 (n :: acc)
                    | _, _, _, _ => parseStringAux fuel cs3 (n :: acc)
                  else parseStringAux fuel cs3 (n :: acc)
                | _ => parseStringAux fuel cs3 (n :: acc)
              else parseStringAux fuel cs3 (n :: acc)
            | _, _, _, _ => none
          | _ => none
        else none
    else if c.toNat < 32 then none
    else parseStringAux fuel cs (c.toNat :: acc)

/-- JSON string body, fuel instantiated from the input length. -/
def parseJString (cs : List Char) : Option (List Nat × List Char) :=
  parseStringAux (cs.length + 1) cs []

/-- Greedy digit run. -/
def digitsOf (cs : List Char) : List Char × List Char :=
  (cs.takeWhile Char.isDigit, cs.dropWhile Char.isDigit)

/-- Integer part of the json number regex: 0, or a nonzero digit followed by
digits. -/
def parseIntPart : List Char → Option (List Char × List Char)
  | [] => none
  | c :: cs =>
    if c == '0' then some (['0'], cs)
    else if c.isDigit then
      match digitsOf cs with
      | (ds, rest) => some (c :: ds, rest)
    else none

/-- Optional fraction part `(\.\d+)?`: taken only when the dot is followed
by at least one digit, otherwise nothing is consumed. -/
def parseFracPart (cs : List Char) : List Char × List Char :=
  match cs with
  | c :: cs2 =>
    if c == '.' then
      match digitsOf cs2 with
      | ([], _) => ([], cs)
      | (ds, rest) => (c :: ds, rest)
    else ([], cs)
  | [] => ([], cs)

/-- Optional exponent part `([eE][-+]?\d+)?`. -/
def parseExpPart (cs : List Char) : List Char × List Char :=
  match cs with
  | e :: cs2 =>
    if e == 'e' || e == 'E' then
      match cs2 with
      | s :: cs3 =>
        if s == '+' || s == '-' then
          match digitsOf cs3 with
          | ([], _) => ([], cs)
          | (ds, rest) => (e :: s :: ds, rest)
        else
          match digitsOf cs2 with
          | ([], _) => ([], cs)
          | (ds, rest) => (e :: ds, rest)
      | [] => ([], cs)
    else ([], cs)
  | [] => ([], cs)

/-- JSON number per the Python json NUMBER_RE; returns the matched lexeme
and the remaining input. -/
def parseNumber (cs : List Char) : Option (List Char × List Char) :=
  match cs with
  | c :: cs2 =>
    if c == '-' then
      match parseIntPart cs2 with
      | some (ip, rest1) =>
        match parseFracPart rest1 with
        | (fp, rest2) =>
          match parseExpPart rest2 with
          | (ep, rest3) => some (c :: (ip ++ fp ++ ep), rest3)
      | none => none
    else
      match parseIntPart cs with
      | some (ip, rest1) =>
        match parseFracPart rest1 with
        | (fp, rest2) =>
          match parseExpPart rest2 with
          | (ep, rest3) => some (ip ++ fp ++ ep, rest3)
      | none => none
  | [] => none

mutual

/-- JSON value at the head of the input (leading whitespace already
skipped), per the Python json scanner, including the nonstandard NaN and
Infinity constants Python accepts by default. -/
def parseValue : Nat → List Char → Option (Json × List Char)
  | 0, _ => none
  | fuel + 1, cs =>
    match cs with
    | [] => none
    | c :: rest =>
      if c == lbrace then parseObjectBody fuel (skipWs rest)
      else if c == lbrack then parseArrayBody fuel (skipWs rest)
      else if c == quoteChar then
        match parseJString rest with
        | some (s, rest2) => some (Json.str s, rest2)
        | none => none
      else if listStartsWith ['t', 'r', 'u', 'e'] cs then some (Json.bool true, cs.drop 4)
      else if listStartsWith ['f', 'a', 'l', 's', 'e'] cs then some (Json.bool false, cs.drop 5)
      else if listStartsWith ['n', 'u', 'l', 'l'] cs then some (Json.null, cs.drop 4)
      else if listStartsWith ['N', 'a', 'N'] cs then some (Json.num ['N', 'a', 'N'], cs.drop 3)
      else if listStartsWith ['I', 'n', 'f', 'i', 'n', 'i', 't', 'y'] cs then
        some (Json.num ['I', 'n', 'f'], cs.drop 8)
      else if listStartsWith ['-', 'I', 'n', 'f', 'i', 'n', 'i', 't', 'y'] cs then
        some (Json.num ['-', 'I', 'n', 'f'], cs.drop 9)
      else
        match parseNumber cs with
        | some (numcs, rest2) => some (Json.num numcs, rest2)
        | none => none

/-- Object body after the opening brace (whitespace skipped): empty object
or a member list. -/
def parseObjectBody : Nat → List Char → Option (Json × List Char)
  | 0, _ => none
  | fuel + 1, cs =>
    match cs with
    | c :: _ =>
      if c == rbrace then some (Json.obj [], cs.drop 1) else parseMembers fuel cs []
    | [] => none

/-- Member list of an object: a quoted key, colon, value, then a comma and
more members or the closing brace.  A trailing comma fails here, exactly
where Python reports a missing property name. -/
def parseMembers : Nat → List Char → List (List Nat × Json) → Option (Json × List Char)
  | 0, _, _ => none
  | fuel + 1, cs, acc =>
    match cs with
    | c :: rest =>
      if c == quoteChar then
        match parseJString rest with
        | some (key, rest1) =>
          match skipWs rest1 with
          | c2 :: rest2 =>
            if c2 == ':' then
              match parseValue fuel (skipWs rest2) with
              | some (v, rest3) =>
                match skipWs rest3 with
                | c3 :: rest4 =>
                  if c3 == ',' then parseMembers fuel (skipWs rest4) (acc ++ [(key, v)])
                  else if c3 == rbrace then some (Json.obj (acc ++ [(key, v)]), rest4)
                  else none
                | [] => none
              | none => none
            else none
          | [] => none
        | none => none
      else none
    | [] => none

/-- Array body after the opening bracket (whitespace skipped). -/
def parseArrayBody : Nat → List Char → Option (Json × List Char)
  | 0, _ => none
  | fuel + 1, cs =>
    match cs with
    | c :: _ =>
      if c == rbrack then some (Json.arr [], cs.drop 1) else parseElements fuel cs []
    | [] => none

/-- Element list of an array; a trailing comma fails at the recursive
parseValue call, as in Python. -/
def parseElements : Nat → List Char → List Json → Option (Json × List Char)
  | 0, _, _ => none
  | fuel + 1, cs, acc =>
    match parseValue fuel cs with
    | some (v, rest) =>
      match skipWs rest with
      | c :: rest2 =>
        if c == ',' then parseElements fuel (skipWs rest2) (acc ++ [v])
        else if c == rbrack then some (Json.arr (acc ++ [v]), rest2)
        else none
      | [] => none
    | none => none

end

/-- Models json.loads on a character list: skip surrounding whitespace,
parse one value, require the rest to be empty.  The fuel bound exceeds what
any input can consume (at least one character is consumed per three fuel
levels). -/
def json_parse (cs : List Char) : Option Json :=
  match parseValue (cs.length * 3 + 4) (skipWs cs) with
  | some (v, rest) => if (skipWs rest).isEmpty then some v else none
  | none => none

/-- Models json.loads on a Python string. -/
def json_loads (s : String) : Option Json := json_parse s.data

/-! ## Response repair pipeline (app.py lines 228-290) -/

/-- Matcher for the tail of `,(\s*C)` after the comma: a whitespace run then
one of the closer characters.  Returns the matched span and the rest. -/
def splitWsCloser (closers : List Char) (cs : List Char) : Option (List Char × List Char) :=
  match cs.dropWhile isPyWs with
  | c :: rest =>
    if closers.contains c then some (cs.takeWhile isPyWs ++ [c], rest) else none
  | [] => none

/-- Single left-to-right re.sub pass for `,(\s*C)` with replacement `\1`:
each matched comma is dropped, scanning resumes after the matched span. -/
def subCommaWsAux (closers : List Char) : Nat → List Char → List Char
  | 0, cs => cs
  | _ + 1, [] => []
  | fuel + 1, c :: cs =>
    if c == ',' then
      match splitWsCloser closers cs with
      | some (consumed, rest) => consumed ++ subCommaWsAux closers fuel rest
      | none => c :: subCommaWsAux closers fuel cs
    else c :: subCommaWsAux closers fuel cs

/-- Trailing-comma removal before any of the given closer characters. -/
def subCommaWs (closers : List Char) (cs : List Char) : List Char :=
  subCommaWsAux closers (cs.length + 1) cs

/-- Character class allowed at the end by the stray-character regex
`[^\w\s\{\}\[\]",:.\-_\s]+$` (word characters taken as ASCII). -/
def isStrayAllowed (c : Char) : Bool :=
  c.isAlpha || c.isDigit || c == '_' || isPyWs c ||
  c == lbrace || c == rbrace || c == lbrack || c == rbrack ||
  c == quoteChar || c == ',' || c == ':' || c == '.' || c == '-'

/-- Remove the maximal trailing run of disallowed characters. -/
def stripTrailingStray (cs : List Char) : List Char :=
  (cs.reverse.dropWhile (fun c => !isStrayAllowed c)).reverse

/-- Models `re.sub(r"'$", '', s)`: drop one trailing single quote. -/
def stripTrailingSQuote (cs : List Char) : List Char :=
  match cs.reverse with
  | c :: rest => if c == squoteChar then rest.reverse else cs
  | [] => cs

/-- The six text repairs of clean_json_response (app.py lines 254-273), in
source order: comma before brace/bracket, comma before quote, comma before
brace, comma before bracket, trailing stray run, trailing single quote. -/
def fixCommonJsonIssues (cs : List Char) : List Char :=
  stripTrailingSQuote (stripTrailingStray
    (subCommaWs [rbrack]
      (subCommaWs [rbrace]
        (subCommaWs [quoteChar]
          (subCommaWs [rbrace, rbrack] cs)))))

/-- Keep everything up to and including the last closing brace. -/
def takeThroughLastRBrace (cs : List Char) : List Char :=
  (cs.reverse.dropWhile (fun c => c != rbrace)).reverse

/-- Models `re.search(r'\{.*\}', s, re.DOTALL)`: the greedy span from the
first opening brace to the last closing brace after it, if any. -/
def extractBraceSpan (cs : List Char) : Option (List Char) :=
  match cs.dropWhile (fun c => c != lbrace) with
  | c :: rest =>
    match takeThroughLastRBrace rest with
    | [] => none
    | body => some (c :: body)
  | [] => none

/-- clean_json_response (app.py lines 228-290): return the text if it
already parses; otherwise extract the greedy brace span; return the repaired
span if it parses, else the unrepaired span if it parses, else the empty
string (the no-valid-output condition). -/
def clean_json_response (response : String) : String :=
  if response = "" then ""
  else if (json_loads response).isSome then response
  else
    match extractBraceSpan response.data with
    | none => ""
    | some extracted =>
      let cleaned := fixCommonJsonIssues extracted
      if (json_parse cleaned).isSome then String.mk cleaned
      else if (json_parse extracted).isSome then String.mk extracted
      else ""

/-! ## FAQ count policy (app.py lines 901-918) -/

/-- Code points of an ASCII key. -/
def codesOfStr (s : String) : List Nat := s.data.map Char.toNat

/-- Python dict lookup over parsed object pairs: the last binding of a key
wins. -/
def dictGetLast (kvs : List (List Nat × Json)) (key : List Nat) : Option Json :=
  match kvs.reverse.find? (fun kv => kv.1 == key) with
  | some kv => some kv.2
  | none => none

/-- Models `j.get(key, default)`: defined only when j is a dict; on any
other value Python raises AttributeError, modelled as none. -/
def pyGetAttr (j : Json) (key : List Nat) (default : Json) : Option Json :=
  match j with
  | Json.obj kvs => some ((dictGetLast kvs key).getD default)
  | _ => none

/-- Models Python len() on a parsed JSON value: lists, strings and dicts
(distinct keys) are sized; other values raise TypeError, modelled as none. -/
def pyLen : Json → Option Nat
  | Json.arr xs => some xs.length
  | Json.str s => some s.length
  | Json.obj kvs => some ((kvs.map Prod.fst).dedup.length)
  | _ => none

/-- Key body. -/
def keyBody : List Nat := codesOfStr "body"

/-- Key faqs_html. -/
def keyFaqsHtml : List Nat := codesOfStr "faqs_html"

/-- Models `len(d.get('body', {}).get('faqs_html', []))` (app.py line 902);
none models an uncaught exception aborting the operation before the retry
logic runs. -/
def faqsCount (j : Json) : Option Nat :=
  match pyGetAttr j keyBody (Json.obj []) with
  | some b =>
    match pyGetAttr b keyFaqsHtml (Json.arr []) with
    | some f => pyLen f
    | none => none
  | none => none

/-- Configured minimum FAQ count of the app.py path. -/
def minFaqs : Nat := 15

/-- The regeneration prompt (app.py line 906): the original prompt plus a
reminder that states the deficient count. -/
def enhancedPromptFor (prompt : String) (count : Nat) : String :=
  prompt ++
    "\n\nCRITICAL REMINDER: You MUST generate AT LEAST 15 FAQs in the faqs_html array. Current count: "
    ++ toString count ++ ". Please regenerate with at least 15 FAQs (20 preferred)."

/-- The FAQ-count acceptance/retry step of generate_content (app.py lines
901-918).  `model` is the external generation service: given a prompt it
yields the response text, or none when the call raises or yields no text.
Result: none when counting the original FAQs raises (the operation aborts
before any retry); otherwise the kept document, the number of regeneration
calls issued, and the prompt used for regeneration if one was issued.  When
the regeneration parses, its document replaces the original with no check on
the new count; any regeneration failure keeps the original. -/
def faq_retry (prompt : String) (orig : Json) (model : String → Option String) :
    Option (Json × Nat × Option String) :=
  match faqsCount orig with
  | none => none
  | some n =>
    if n < minFaqs then
      let ep := enhancedPromptFor prompt n
      match model ep with
      | some t =>
        if t ≠ "" then
          match json_loads (clean_json_response t) with
          | some newData => some (newData, 1, some ep)
          | none => some (orig, 1, some ep)
        else some (orig, 1, some ep)
      | none => some (orig, 1, some ep)
    else some (orig, 0, none)

/-! ## FAQ-schema extractor (app.py lines 162-226) -/

/-- Case-insensitive literal match at the head of a list. -/
def listStartsWithCI (pat cs : List Char) : Bool :=
  listStartsWith (pat.map Char.toLower) (cs.map Char.toLower)

/-- Consume through the first closing angle bracket, modelling `[^>]*>`
after an open-tag literal; none when no closing bracket exists. -/
def splitAtFirstGt (cs : List Char) : Option (List Char) :=
  match cs.dropWhile (fun c => c != '>') with
  | _ :: rest => some rest
  | [] => none

/-- Content before the first case-insensitive occurrence of the pattern,
modelling the lazy group `(.*?)` followed by a close-tag literal. -/
def findBeforeCI (pat : List Char) : List Char → Option (List Char)
  | [] => none
  | c :: rest =>
    if listStartsWithCI pat (c :: rest) then some []
    else
      match findBeforeCI pat rest with
      | some content => some (c :: content)
      | none => none

/-- Models `re.search(r'<T[^>]*>(.*?)</T>', s, re.DOTALL | re.IGNORECASE)`:
try every start position left to right; at a position matching the open
literal, take everything to the first closing angle bracket, then the lazy
content up to the first close literal; on failure resume at the next start
position. -/
def searchTagGroup (openPat closePat : List Char) : List Char → Option (List Char)
  | [] => none
  | c :: rest =>
    if listStartsWithCI openPat (c :: rest) then
      match splitAtFirstGt ((c :: rest).drop openPat.length) with
      | some afterGt =>
        match findBeforeCI closePat afterGt with
        | some content => some content
        | none => searchTagGroup openPat closePat rest
      | none => searchTagGroup openPat closePat rest
    else searchTagGroup openPat closePat rest

/-- Single left-to-right re.sub pass for `<[^>]+>` with empty replacement:
drop each maximal tag span; a lone opening angle bracket with no closing
bracket, or an immediately closed one, is kept. -/
def stripTagsAux : Nat → List Char → List Char
  | 0, cs => cs
  | _ + 1, [] => []
  | fuel + 1, c :: cs =>
    if c == '<' then
      match cs.dropWhile (fun x => x != '>') with
      | _ :: rest2 =>
        if (cs.takeWhile (fun x => x != '>')).isEmpty then c :: stripTagsAux fuel cs
        else stripTagsAux fuel rest2
      | [] => c :: stripTagsAux fuel cs
    else c :: stripTagsAux fuel cs

/-- Nested-markup removal applied to answers (app.py line 193). -/
def stripTags (cs : List Char) : List Char := stripTagsAux (cs.length + 1) cs

/-- Open-tag literal of the question pattern. -/
def h2OpenPat : List Char := ['<', 'h', '2']

/-- Close-tag literal of the question pattern. -/
def h2ClosePat : List Char := ['<', '/', 'h', '2', '>']

/-- Open-tag literal of the answer pattern. -/
def pOpenPat : List Char := ['<', 'p']

/-- Close-tag literal of the answer pattern. -/
def pClosePat : List Char := ['<', '/', 'p', '>']

/-- One schema item (app.py lines 196-203). -/
def faqItemJson (q a : List Char) : Json :=
  Json.obj
    [(codesOfStr "@type", Json.str (codesOfStr "Question")),
     (codesOfStr "name", Json.str (q.map Char.toNat)),
     (codesOfStr "acceptedAnswer",
       Json.obj
         [(codesOfStr "@type", Json.str (codesOfStr "Answer")),
          (codesOfStr "text", Json.str (a.map Char.toNat))])]

/-- Per-fragment extraction (app.py lines 172-205): question from the h2
pattern, answer from the p pattern, both stripped, markup removed from the
answer; none when either pattern misses or either side ends up empty. -/
def extractFaqPair (frag : String) : Option (List Char × List Char) :=
  match searchTagGroup h2OpenPat h2ClosePat frag.data with
  | none => none
  | some qraw =>
    match searchTagGroup pOpenPat pClosePat frag.data with
    | none => none
    | some araw =>
      let q := pyStrip qraw
      let a := stripTags (pyStrip araw)
      if !q.isEmpty && !a.isEmpty then some (q, a) else none

/-- The extraction loop over the fragment list, skipping fragments that
yield no pair, preserving order. -/
def faqItemsLoop : List String → List Json
  | [] => []
  | f :: rest =>
    match extractFaqPair f with
    | some qa => faqItemJson qa.1 qa.2 :: faqItemsLoop rest
    | none => faqItemsLoop rest

/-- generate_faq_schema (app.py lines 162-226): empty structure for an empty
or fully-skipped fragment list, otherwise the FAQPage wrapper around the
surviving items in original order. -/
def generate_faq_schema (faqs_html : List String) : Json :=
  match faqs_html with
  | [] => Json.obj []
  | _ =>
    match faqItemsLoop faqs_html with
    | [] => Json.obj []
    | items =>
      Json.obj
        [(codesOfStr "@context", Json.str (codesOfStr "https://schema.org")),
         (codesOfStr "@type", Json.str (codesOfStr "FAQPage")),
         (codesOfStr "mainEntity", Json.arr items)]

/-! ## Concrete records used by witnesses and counterexamples -/

def recA : KeywordRecord := ⟨1, "alpha", 500, "", 0, 0, "H1", 0, none⟩

def recB : KeywordRecord := ⟨2, "beta", 300, "", 0, 0, "H2", 1, none⟩

def recLow : KeywordRecord := ⟨0, "low", 100, "", 0, 0, "", 0, none⟩

def recNails : KeywordRecord := ⟨0, "nails", 10, "", 0, 0, "H1", 0, none⟩

def recTypes : KeywordRecord := ⟨1, "types", 10, "", 0, 0, "H2", 0, none⟩

def recAcrylic : KeywordRecord := ⟨2, "acrylic", 10, "", 0, 0, "H3", 0, some 1⟩

/-! ## Helper lemmas on the resequencing loops -/

theorem resequenceFrom_length (n : Nat) (l : List KeywordRecord) :
    (resequenceFrom n l).length = l.length := by
  induction l generalizing n with
  | nil => rfl
  | cons kw rest ih => simp [resequenceFrom, ih]

theorem resequenceFrom_map_order (n : Nat) (l : List KeywordRecord) :
    (resequenceFrom n l).map (fun kw => kw.order) = (List.range' n l.length).map Int.ofNat := by
  induction l generalizing n with
  | nil => rfl
  | cons kw rest ih => simp [resequenceFrom, List.range', ih]

theorem resequenceFrom_map_clearOrder (n : Nat) (l : List KeywordRecord) :
    (resequenceFrom n l).map clearOrder = l.map clearOrder := by
  induction l generalizing n with
  | nil => rfl
  | cons kw rest ih => simp [resequenceFrom, clearOrder, ih]

/-- C6: for every collection and every id, removing the record with that id
yields survivors whose order fields form the contiguous sequence
0, 1, ..., N-1 and whose relative order (and content apart from the order
field) equals their relative order before the removal. -/
theorem remove_keyword_spec (data : List KeywordRecord) (keyword_id : Int) :
    (remove_keyword data keyword_id).map (fun kw => kw.order)
      = (List.range (remove_keyword data keyword_id).length).map Int.ofNat
    ∧ (remove_keyword data keyword_id).map clearOrder
      = (data.filter (fun kw => kw.id != keyword_id)).map clearOrder := by
  constructor
  · rw [List.range_eq_range']
    unfold remove_keyword
    rw [resequenceFrom_length]
    exact resequenceFrom_map_order 0 _
  · exact resequenceFrom_map_clearOrder 0 _

/-! ## Helper lemmas on the reorder loop -/

theorem lookupId_id_eq {data : List KeywordRecord} {kid : Int} {kw : KeywordRecord}
    (h : lookupId data kid = some kw) : kw.id = kid := by
  unfold lookupId at h
  have := List.find?_some h
  simpa using this

theorem reorderFrom_map_id (data : List KeywordRecord) (n : Nat) (no : List Int) :
    (reorderFrom data n no).map (fun kw => kw.id)
      = no.filter (fun kid => (lookupId data kid).isSome) := by
  induction no generalizing n with
  | nil => rfl
  | cons kid rest ih =>
    simp only [reorderFrom]
    cases h : lookupId data kid with
    | none => simp [List.filter_cons, h, ih]
    | some kw =>
      have hid : kw.id = kid := lookupId_id_eq h
      simp [List.filter_cons, h, ih, hid]

theorem reorderFrom_map_order (data : List KeywordRecord) (n : Nat) (no : List Int) :
    (reorderFrom data n no).map (fun kw => kw.order)
      = ((List.enumFrom n no).filter (fun p => (lookupId data p.2).isSome)).map
          (fun p => Int.ofNat p.1) := by
  induction no generalizing n with
  | nil => rfl
  | cons kid rest ih =>
    simp only [reorderFrom, List.enumFrom]
    cases h : lookupId data kid with
    | none => simp [List.filter_cons, h, ih]
    | some kw => simp [List.filter_cons, h, ih]

/-- C7: for every duplicate-free newIdOrder sequence, reorder produces a
collection whose records carry exactly the ids of newIdOrder that exist in
the collection, in newIdOrder's relative order; each record's order field is
its position (enumerate index) in newIdOrder; the length is the number of
existing ids; and every record whose id is absent from newIdOrder is
dropped. -/
theorem reorder_keywords_spec (data : List KeywordRecord) (new_order : List Int)
    (_hnd : new_order.Nodup) :
    (reorder_keywords data new_order).map (fun kw => kw.id)
      = new_order.filter (fun kid => (lookupId data kid).isSome)
    ∧ (reorder_keywords data new_order).length
      = (new_order.filter (fun kid => (lookupId data kid).isSome)).length
    ∧ (reorder_keywords data new_order).map (fun kw => kw.order)
      = ((new_order.enum).filter (fun p => (lookupId data p.2).isSome)).map
          (fun p => Int.ofNat p.1)
    ∧ ∀ kw ∈ reorder_keywords data new_order, kw.id ∈ new_order := by
  refine ⟨reorderFrom_map_id data 0 new_order, ?_, ?_, ?_⟩
  · have h := congrArg List.length (reorderFrom_map_id data 0 new_order)
    simpa using h
  · rw [List.enum_eq_enumFrom]
    exact reorderFrom_map_order data 0 new_order
  · intro kw hkw
    have h1 : kw.id ∈ (reorder_keywords data new_order).map (fun kw => kw.id) :=
      List.mem_map_of_mem _ hkw
    rw [show reorder_keywords data new_order = reorderFrom data 0 new_order from rfl,
        reorderFrom_map_id] at h1
    exact (List.mem_filter.mp h1).1

/-- C7 witness: reorder of a two-record collection by [2, 99, 1]; the id 99
is silently dropped and the surviving ids follow the requested order. -/
theorem reorder_keywords_spec_witness :
    List.Nodup [(2 : Int), 99, 1]
    ∧ (reorder_keywords [recA, recB] [2, 99, 1]).map (fun kw => kw.id) = [2, 1] := by
  refine ⟨by decide, ?_⟩
  have h := (reorder_keywords_spec [recA, recB] [2, 99, 1] (by decide)).1
  rw [h]; decide

/-! ## Helper lemmas on the volume filter -/

theorem applyFilterOrders_map_clearOrder (v : Int) (n : Nat) (l : List KeywordRecord) :
    (applyFilterOrders v n l).map clearOrder = l.map clearOrder := by
  induction l generalizing n with
  | nil => rfl
  | cons kw rest ih =>
    by_cases hv : v ≤ kw.volume <;> simp [applyFilterOrders, hv, clearOrder, ih]

theorem applyFilterOrders_filter (v : Int) (n : Nat) (l : List KeywordRecord) :
    (applyFilterOrders v n l).filter (fun kw => decide (v ≤ kw.volume))
      = resequenceFrom n (l.filter (fun kw => decide (v ≤ kw.volume))) := by
  induction l generalizing n with
  | nil => rfl
  | cons kw rest ih =>
    by_cases hv : v ≤ kw.volume <;>
      simp [applyFilterOrders, List.filter_cons, hv, resequenceFrom, ih]

theorem applyFilterOrders_keeps_low (v : Int) (n : Nat) (l : List KeywordRecord) :
    ∀ kw ∈ l, kw.volume < v → kw ∈ applyFilterOrders v n l := by
  induction l generalizing n with
  | nil => intro kw h; cases h
  | cons kw0 rest ih =>
    intro kw hkw hlt
    rcases List.mem_cons.mp hkw with he | ht
    · subst he
      simp only [applyFilterOrders]
      rw [if_neg (not_le.mpr hlt)]
      exact List.mem_cons_self _ _
    · simp only [applyFilterOrders]
      by_cases hv : v ≤ kw0.volume
      · rw [if_pos hv]
        exact List.mem_cons_of_mem _ (ih (n + 1) kw ht hlt)
      · rw [if_neg hv]
        exact List.mem_cons_of_mem _ (ih n kw ht hlt)

/-- C9 counterexample: with one record below the floor, the response list is
empty but the process-wide collection afterwards still holds the record —
the endpoint does not replace the current collection with the filtered
result; it edits order fields of qualifying records in place and never
reassigns the global. -/
theorem filter_keywords_cex :
    (filter_keywords [recLow] 400).2 = []
    ∧ (filter_keywords [recLow] 400).1 = [recLow]
    ∧ (filter_keywords [recLow] 400).1 ≠ (filter_keywords [recLow] 400).2 := by
  decide

/-- C9 amended: filterByVolumeFloor(min) returns exactly the records with
searchVolume >= min, re-sequenced to 0-based order; the process-wide
collection is NOT replaced by the filtered result: it keeps all records
(content unchanged apart from order fields), with the k-th qualifying record
mutated in place to order k, so the response coincides with the qualifying
records of the updated collection while below-floor records survive
untouched. -/
theorem filter_keywords_amended (data : List KeywordRecord) (min_volume : Int) :
    ((filter_keywords data min_volume).2).map clearOrder
      = (data.filter (fun kw => decide (min_volume ≤ kw.volume))).map clearOrder
    ∧ ((filter_keywords data min_volume).2).map (fun kw => kw.order)
      = (List.range (filter_keywords data min_volume).2.length).map Int.ofNat
    ∧ ((filter_keywords data min_volume).1).map clearOrder = data.map clearOrder
    ∧ ((filter_keywords data min_volume).1).filter (fun kw => decide (min_volume ≤ kw.volume))
      = (filter_keywords data min_volume).2
    ∧ ∀ kw ∈ data, kw.volume < min_volume → kw ∈ (filter_keywords data min_volume).1 := by
  refine ⟨resequenceFrom_map_clearOrder 0 _, ?_, applyFilterOrders_map_clearOrder _ 0 data,
    applyFilterOrders_filter _ 0 data, ?_⟩
  · have h2 : (filter_keywords data min_volume).2
        = resequenceFrom 0 (data.filter (fun kw => decide (min_volume ≤ kw.volume))) := rfl
    rw [List.range_eq_range', h2, resequenceFrom_length]
    exact resequenceFrom_map_order 0 _
  · intro kw hkw hlt
    exact applyFilterOrders_keeps_low _ 0 data kw hkw hlt

/-- C9 witness: a mixed collection with the floor at 400; one record passes
and is re-sequenced in the response, the low record survives in the
collection. -/
theorem filter_keywords_amended_witness :
    recLow ∈ [recA, recLow] ∧ recLow.volume < 400
    ∧ recLow ∈ (filter_keywords [recA, recLow] 400).1
    ∧ ((filter_keywords [recA, recLow] 400).2).map clearOrder
      = ([recA, recLow].filter (fun kw => decide ((400 : Int) ≤ kw.volume))).map clearOrder := by
  refine ⟨by decide, by decide, ?_, (filter_keywords_amended [recA, recLow] 400).1⟩
  exact (filter_keywords_amended [recA, recLow] 400).2.2.2.2 recLow (by decide) (by decide)

/-! ## Helper lemmas on the handle normalization -/

theorem subWsRunsAux_false_ne_nil (c : Char) (cs : List Char) :
    subWsRunsAux false (c :: cs) ≠ [] := by
  by_cases h : isPyWs c = true <;> simp [subWsRunsAux, h]

/-- C4: validate_handle trims, lowercases and hyphenates its input, then
fails exactly when the normalized text is empty, contains a character
outside [a-z0-9-], starts or ends with a hyphen, or contains a double
hyphen; on success it returns the normalized handle.  Concretely "--bad-"
fails and "nail-art" succeeds with "nail-art". -/
theorem validate_handle_spec :
    (∀ handle : String,
      ((validate_handle handle).1 = true ↔ handleOk (normalizeHandle handle) = true)
      ∧ ((validate_handle handle).1 = true →
          (validate_handle handle).2 = String.mk (normalizeHandle handle)))
    ∧ (validate_handle "--bad-").1 = false
    ∧ validate_handle "nail-art" = (true, "nail-art") := by
  refine ⟨fun handle => ?_, by decide, by decide⟩
  unfold validate_handle
  split_ifs with h0 h1 h2 h3 h4
  · subst h0
    exact ⟨by decide, by intro h; cases h⟩
  · have hn : normalizeHandle handle = [] := by
      unfold normalizeHandle subWsRuns
      rw [h1]
      rfl
    refine ⟨?_, by intro h; cases h⟩
    simp [hn, handleOk]
  · refine ⟨?_, by intro h; cases h⟩
    simp only [handleOk, h2, Bool.not_true, Bool.false_and]
    simp
  · refine ⟨?_, by intro h; cases h⟩
    simp only [handleOk, h3, Bool.not_true, Bool.and_false, Bool.false_and]
    simp
  · refine ⟨?_, by intro h; cases h⟩
    simp only [handleOk, h4, Bool.not_true, Bool.and_false]
    simp
  · refine ⟨?_, fun _ => rfl⟩
    simp only [handleOk]
    rw [Bool.eq_false_iff.mpr h2, Bool.eq_false_iff.mpr h3, Bool.eq_false_iff.mpr h4]
    simp

/-- C4 witness: a mixed-case input with an internal whitespace run is
accepted and normalized to a hyphenated lowercase handle. -/
theorem validate_handle_spec_witness :
    (validate_handle "Nail  Art").1 = true
    ∧ (validate_handle "Nail  Art").2 = String.mk (normalizeHandle "Nail  Art") := by
  have h := validate_handle_spec.1 "Nail  Art"
  have ht : (validate_handle "Nail  Art").1 = true := h.1.mpr (by decide)
  exact ⟨ht, h.2 ht⟩

/-- C5 counterexample: the claim says validateTags succeeds for EVERY tags
input when a handle is supplied, but empty tags fail before the handle
branch is reached. -/
theorem validate_tags_cex :
    (validate_tags "" (some "nail-art")).1 = false := by decide

/-- C5 amended: for every tags input that is nonempty after trimming,
validateTags with a supplied nonempty handle succeeds and returns the handle
with hyphen runs replaced by single spaces (then trimmed), ignoring the
explicit tag text; with no handle, validateTags("a, b, c") succeeds and
returns "a, b, c". -/
theorem validate_tags_amended (tags : String) (h : String)
    (htags : pyStrip tags.data ≠ []) (hh : h ≠ "") :
    validate_tags tags (some h) = (true, String.mk (handleWithSpaces h))
    ∧ validate_tags "a, b, c" none = (true, "a, b, c") := by
  refine ⟨?_, by decide⟩
  have ht0 : tags ≠ "" := by
    intro he
    subst he
    exact htags (by decide)
  unfold validate_tags
  rw [if_neg ht0, if_neg htags]
  show (if h ≠ "" then (true, String.mk (handleWithSpaces h))
        else tagListResult (pyStrip tags.data)) = _
  rw [if_pos hh]

/-- C5 witness: any nonempty tag text is overridden by the supplied handle,
which is returned with hyphens turned into spaces. -/
theorem validate_tags_amended_witness :
    validate_tags "x" (some "nail-art") = (true, "nail art") := by
  have h := (validate_tags_amended "x" "nail-art" (by decide) (by decide)).1
  exact h

/-! ## Helper lemmas on the hierarchy builder -/

theorem mem_sortByOrder {a : KeywordRecord} {l : List KeywordRecord} :
    a ∈ sortByOrder l ↔ a ∈ l := List.mem_mergeSort

theorem count_sortByOrder (a : KeywordRecord) (l : List KeywordRecord) :
    (sortByOrder l).count a = l.count a :=
  (List.mergeSort_perm l orderLe).count_eq a

theorem sorted_sortByOrder (l : List KeywordRecord) :
    (sortByOrder l).Pairwise (fun a b => orderLe a b = true) := by
  apply List.sorted_mergeSort
  · intro a b c hab hbc
    simp only [orderLe, decide_eq_true_eq] at hab hbc ⊢
    omega
  · intro a b
    simp only [orderLe, Bool.or_eq_true, decide_eq_true_eq]
    exact Int.le_total a.order b.order

theorem mem_tagged {kw : KeywordRecord} {t : String} {data : List KeywordRecord} :
    kw ∈ tagged t data ↔ kw ∈ data ∧ kw.tag = t := by
  simp [tagged, List.mem_filter]

theorem sum_count_children (h3 s : KeywordRecord) (hp : h3.parent_id = some s.id)
    (h3s : List KeywordRecord) :
    ∀ h2list : List KeywordRecord, (∀ h2 ∈ h2list, h2.id = s.id → h2 = s) →
      (h2list.map (fun h2 => (h3Children h3s h2).count h3)).sum
        = h2list.count s * h3s.count h3 := by
  intro h2list
  induction h2list with
  | nil => intro _; simp
  | cons h2 rest ih =>
    intro hinj
    have hrest : ∀ x ∈ rest, x.id = s.id → x = s :=
      fun x hx => hinj x (List.mem_cons_of_mem _ hx)
    by_cases he : h2 = s
    · subst he
      have hcnt : (h3Children h3s h2).count h3 = h3s.count h3 := by
        apply List.count_filter
        simp [hp]
      rw [List.map_cons, List.sum_cons, hcnt, ih hrest, List.count_cons_self]
      ring
    · have hne : h2.id ≠ s.id := fun hh => he (hinj h2 (List.mem_cons_self _ _) hh)
      have hcnt : (h3Children h3s h2).count h3 = 0 := by
        apply List.count_eq_zero.mpr
        intro hmem
        have hpred := (List.mem_filter.mp hmem).2
        simp only [hp, beq_iff_eq, Option.some.injEq] at hpred
        exact hne hpred.symm
      rw [List.map_cons, List.sum_cons, hcnt, ih hrest, List.count_cons_of_ne (Ne.symm he)]
      simp

/-- C1: for every flat collection with duplicate-free records and
duplicate-free Section (H2) ids, the hierarchy builder nests each H3 record
whose parent_id equals the id of some H2 record exactly once across all
entries, and only under that H2's entry; every entry's children list is
sorted in ascending global order; an H3 whose parent_id matches no H2 id is
absent from every children list; and an untagged record appears nowhere in
the nested output (neither in the H1 list, nor as an entry head, nor as a
child). -/
theorem build_h2_entries_spec (data : List KeywordRecord)
    (hnd : data.Nodup)
    (hids : ((tagged "H2" data).map (fun kw => kw.id)).Nodup) :
    (∀ h3 ∈ data, h3.tag = "H3" → ∀ s ∈ data, s.tag = "H2" → h3.parent_id = some s.id →
      (((build_h2_entries data).map (fun e => e.2.count h3)).sum = 1
        ∧ ∀ e ∈ build_h2_entries data, h3 ∈ e.2 → e.1 = s))
    ∧ (∀ e ∈ build_h2_entries data, e.2.Pairwise (fun a b => a.order ≤ b.order))
    ∧ (∀ h3 : KeywordRecord, (∀ s ∈ data, s.tag = "H2" → h3.parent_id ≠ some s.id) →
        ∀ e ∈ build_h2_entries data, h3 ∉ e.2)
    ∧ (∀ kw : KeywordRecord, kw.tag = "" →
        kw ∉ sortByOrder (tagged "H1" data)
        ∧ ∀ e ∈ build_h2_entries data, e.1 ≠ kw ∧ kw ∉ e.2) := by
  have hinj : ∀ x ∈ tagged "H2" data, ∀ y ∈ tagged "H2" data, x.id = y.id → x = y := by
    intro x hx y hy hxy
    exact List.inj_on_of_nodup_map hids hx hy hxy
  refine ⟨?_, ?_, ?_, ?_⟩
  · intro h3 h3mem h3tag s smem stag hp
    have hsT : s ∈ tagged "H2" data := mem_tagged.mpr ⟨smem, stag⟩
    have hinjS : ∀ h2 ∈ sortByOrder (tagged "H2" data), h2.id = s.id → h2 = s := by
      intro h2 hh2 hid
      exact hinj h2 (mem_sortByOrder.mp hh2) s hsT hid
    constructor
    · have hsum := sum_count_children h3 s hp (sortByOrder (tagged "H3" data))
        (sortByOrder (tagged "H2" data)) hinjS
      have hmaps : (build_h2_entries data).map (fun e => e.2.count h3)
          = (sortByOrder (tagged "H2" data)).map
              (fun h2 => (h3Children (sortByOrder (tagged "H3" data)) h2).count h3) := by
        simp [build_h2_entries, List.map_map]
      have hcs : (sortByOrder (tagged "H2" data)).count s = 1 := by
        rw [count_sortByOrder]
        have h1 : (tagged "H2" data).count s = data.count s := by
          apply List.count_filter
          simp [stag]
        rw [h1]
        exact List.count_eq_one_of_mem hnd smem
      have hc3 : (sortByOrder (tagged "H3" data)).count h3 = 1 := by
        rw [count_sortByOrder]
        have h1 : (tagged "H3" data).count h3 = data.count h3 := by
          apply List.count_filter
          simp [h3tag]
        rw [h1]
        exact List.count_eq_one_of_mem hnd h3mem
      rw [hmaps, hsum, hcs, hc3]
    · intro e he hin
      rcases List.mem_map.mp he with ⟨h2, hh2, rfl⟩
      have hpred := (List.mem_filter.mp hin).2
      simp only [hp, beq_iff_eq, Option.some.injEq] at hpred
      exact hinjS h2 hh2 hpred.symm
  · intro e he
    rcases List.mem_map.mp he with ⟨h2, _, rfl⟩
    have hs := (sorted_sortByOrder (tagged "H3" data)).filter
      (fun h3 => h3.parent_id == some h2.id)
    exact hs.imp (by intro a b hab; simpa [orderLe] using hab)
  · intro h3 horphan e he hin
    rcases List.mem_map.mp he with ⟨h2, hh2, rfl⟩
    have hh2T := mem_tagged.mp (mem_sortByOrder.mp hh2)
    have hpred := (List.mem_filter.mp hin).2
    rw [beq_iff_eq] at hpred
    exact horphan h2 hh2T.1 hh2T.2 hpred
  · intro kw hkw
    constructor
    · intro hmem
      have h := (mem_tagged.mp (mem_sortByOrder.mp hmem)).2
      rw [hkw] at h
      exact absurd h (by decide)
    · intro e he
      rcases List.mem_map.mp he with ⟨h2, hh2, rfl⟩
      constructor
      · intro heq
        have heq2 : h2 = kw := heq
        have h := (mem_tagged.mp (mem_sortByOrder.mp hh2)).2
        rw [heq2, hkw] at h
        exact absurd h (by decide)
      · intro hin
        have h3mem := List.mem_filter.mp hin
        have h := (mem_tagged.mp (mem_sortByOrder.mp h3mem.1)).2
        rw [hkw] at h
        exact absurd h (by decide)

/-- C1 witness: the end-to-end example of the specification, one H1, one H2
and one H3 whose parent_id points at the H2: the H3 is nested exactly once
across the entries. -/
theorem build_h2_entries_spec_witness :
    ((build_h2_entries [recNails, recTypes, recAcrylic]).map
        (fun e => e.2.count recAcrylic)).sum = 1 :=
  ((build_h2_entries_spec [recNails, recTypes, recAcrylic] (by decide) (by decide)).1
    recAcrylic (by decide) (by decide) recTypes (by decide) (by decide) (by decide)).1

/-! ## Repair pipeline claims -/

/-- C2 counterexample: the input 123 contains no braces at all, yet the
pipeline does not fail with the no-valid-output condition (the empty
string): the direct strict parse succeeds and the text is returned. -/
theorem clean_json_response_no_brace_cex :
    (∀ c ∈ "123".data, c ≠ lbrace ∧ c ≠ rbrace) ∧ clean_json_response "123" = "123" := by
  constructor
  · decide
  · decide

/-- C2 amended: the pipeline first attempts a strict parse of the whole
text; on failure it extracts the greedy first-to-last brace span and parses
it; on failure it applies the trailing-comma and trailing-stray repairs and
re-parses, falling back to the unrepaired span.  The trailing-comma document
repairs to the cleaned document, the garbage-wrapped document extracts and
repairs, and an input that does not already parse and contains no braces at
all fails with the no-valid-output condition (the empty string). -/
theorem clean_json_response_repair_amended :
    clean_json_response "\x7b\"a\":1,\x7d" = "\x7b\"a\":1\x7d"
    ∧ clean_json_response "garbage \x7b\"a\":[1,2],\x7d trailing$$$" = "\x7b\"a\":[1,2]\x7d"
    ∧ (∀ r : String, (json_loads r).isSome = false →
        (∀ c ∈ r.data, c ≠ lbrace ∧ c ≠ rbrace) → clean_json_response r = "") := by
  refine ⟨by decide, by decide, ?_⟩
  intro r hparse hnob
  unfold clean_json_response
  by_cases h0 : r = ""
  · rw [if_pos h0]
  · rw [if_neg h0]
    have hx : extractBraceSpan r.data = none := by
      unfold extractBraceSpan
      have hd : r.data.dropWhile (fun c => c != lbrace) = [] := by
        rw [List.dropWhile_eq_nil_iff]
        intro x hxm
        exact bne_iff_ne.mpr (hnob x hxm).1
      rw [hd]
    rw [hparse]
    show (match extractBraceSpan r.data with
          | none => ""
          | some extracted =>
            if (json_parse (fixCommonJsonIssues extracted)).isSome = true then
              String.mk (fixCommonJsonIssues extracted)
            else if (json_parse extracted).isSome = true then String.mk extracted
            else "") = ""
    rw [hx]

/-- C2 witness: a brace-free non-JSON input yields the empty string. -/
theorem clean_json_response_repair_witness :
    clean_json_response "no json here" = "" :=
  clean_json_response_repair_amended.2.2 "no json here" (by decide) (by decide)

/-- C10: an input that already parses under the strict parser is returned
unchanged by the cleaning step — no extraction or repair is applied. -/
theorem clean_json_response_id_on_valid (r : String) (h : (json_loads r).isSome = true) :
    clean_json_response r = r := by
  have h0 : r ≠ "" := by
    intro he
    subst he
    exact absurd h (by decide)
  unfold clean_json_response
  rw [if_neg h0, if_pos h]

/-- C10 witness: the empty object document passes through unchanged. -/
theorem clean_json_response_id_witness :
    (json_loads "\x7b\x7d").isSome = true ∧ clean_json_response "\x7b\x7d" = "\x7b\x7d" :=
  ⟨by decide, clean_json_response_id_on_valid "\x7b\x7d" (by decide)⟩

/-! ## FAQ retry claim -/

/-- C3: when the parsed generation result counts fewer than the configured
minimum of FAQs, exactly one regeneration call is issued, with the reminder
prompt stating the deficient count; if the regeneration response parses, its
document replaces the original regardless of its own FAQ count; if the call
fails, yields no text, or fails to parse, the original deficient document is
kept; the step itself never fails; at or above the minimum no regeneration
is issued. -/
theorem faq_retry_spec (prompt : String) (orig : Json) (model : String → Option String)
    (n : Nat) (hc : faqsCount orig = some n) :
    (n < minFaqs →
      ∃ res, faq_retry prompt orig model = some (res, 1, some (enhancedPromptFor prompt n))
        ∧ ((∃ t, model (enhancedPromptFor prompt n) = some t ∧ t ≠ ""
              ∧ json_loads (clean_json_response t) = some res)
          ∨ (res = orig
              ∧ ∀ t, model (enhancedPromptFor prompt n) = some t → t ≠ "" →
                  json_loads (clean_json_response t) = none)))
    ∧ (minFaqs ≤ n → faq_retry prompt orig model = some (orig, 0, none)) := by
  constructor
  · intro hlt
    cases hm : model (enhancedPromptFor prompt n) with
    | none =>
      refine ⟨orig, ?_, Or.inr ⟨rfl, ?_⟩⟩
      · simp only [faq_retry, hc]
        rw [if_pos hlt]
        simp only [hm]
      · intro t ht
        cases ht
    | some t =>
      by_cases hts : t = ""
      · subst hts
        refine ⟨orig, ?_, Or.inr ⟨rfl, ?_⟩⟩
        · simp only [faq_retry, hc]
          rw [if_pos hlt]
          simp only [hm]
          rw [if_neg (not_not_intro rfl)]
        · intro t2 ht2 hne2
          injection ht2 with he
          exact absurd he.symm hne2
      · cases hj : json_loads (clean_json_response t) with
        | some newData =>
          refine ⟨newData, ?_, Or.inl ⟨t, rfl, hts, hj⟩⟩
          simp only [faq_retry, hc]
          rw [if_pos hlt]
          simp only [hm]
          rw [if_pos hts]
          simp only [hj]
        | none =>
          refine ⟨orig, ?_, Or.inr ⟨rfl, ?_⟩⟩
          · simp only [faq_retry, hc]
            rw [if_pos hlt]
            simp only [hm]
            rw [if_pos hts]
            simp only [hj]
          · intro t2 ht2 _
            injection ht2 with he
            rw [← he]
            exact hj
  · intro hge
    simp only [faq_retry, hc]
    rw [if_neg (not_lt.mpr hge)]

/-- C3 witness: an original document with zero FAQs issues one regeneration
with the reminder prompt; the parseable regenerated document replaces it. -/
theorem faq_retry_spec_witness :
    faq_retry "p" (Json.obj []) (fun _ => some "\x7b\x7d")
      = some (Json.obj [], 1, some (enhancedPromptFor "p" 0)) := by
  obtain ⟨res, he, hd⟩ :=
    (faq_retry_spec "p" (Json.obj []) (fun _ => some "\x7b\x7d") 0 rfl).1 (by decide)
  rcases hd with ⟨t, ht, _, hj⟩ | ⟨hres, _⟩
  · injection ht with h1
    subst h1
    have hv : json_loads (clean_json_response "\x7b\x7d") = some (Json.obj []) := rfl
    rw [hv] at hj
    injection hj with h2
    rw [← h2] at he
    exact he
  · rw [hres] at he
    exact he

/-! ## FAQ-schema extractor claims -/

theorem faqItemsLoop_eq_filterMap (frags : List String) :
    faqItemsLoop frags
      = frags.filterMap (fun f => (extractFaqPair f).map (fun qa => faqItemJson qa.1 qa.2)) := by
  induction frags with
  | nil => rfl
  | cons f rest ih =>
    cases h : extractFaqPair f with
    | none => simp [faqItemsLoop, List.filterMap_cons, h, ih]
    | some qa => simp [faqItemsLoop, List.filterMap_cons, h, ih]

theorem faqItemsLoop_nil_of_all_none (frags : List String)
    (h : ∀ f ∈ frags, extractFaqPair f = none) : faqItemsLoop frags = [] := by
  induction frags with
  | nil => rfl
  | cons f rest ih =>
    have hf := h f (List.mem_cons_self _ _)
    have hr := ih fun x hx => h x (List.mem_cons_of_mem _ hx)
    simp [faqItemsLoop, hf, hr]

/-- C8: a fragment with no h2 match, no p match, or an empty question or
answer after stripping contributes nothing; when zero fragments yield a
usable pair the output is the empty structure, not an error; otherwise the
surviving pairs appear in original list order under the fixed FAQPage
schema tag; concretely the two-fragment example yields exactly the Q1/A1
pair. -/
theorem generate_faq_schema_spec :
    (∀ frags : List String, (∀ f ∈ frags, extractFaqPair f = none) →
        generate_faq_schema frags = Json.obj [])
    ∧ (∀ frags : List String,
        faqItemsLoop frags
          = frags.filterMap (fun f => (extractFaqPair f).map (fun qa => faqItemJson qa.1 qa.2)))
    ∧ (∀ frags : List String, ∀ j js, faqItemsLoop frags = j :: js →
        generate_faq_schema frags
          = Json.obj [(codesOfStr "@context", Json.str (codesOfStr "https://schema.org")),
                      (codesOfStr "@type", Json.str (codesOfStr "FAQPage")),
                      (codesOfStr "mainEntity", Json.arr (j :: js))])
    ∧ generate_faq_schema ["<h2>Q1</h2><p>A1</p>", "<h2>Q2</h2>"]
        = Json.obj [(codesOfStr "@context", Json.str (codesOfStr "https://schema.org")),
                    (codesOfStr "@type", Json.str (codesOfStr "FAQPage")),
                    (codesOfStr "mainEntity", Json.arr [faqItemJson ['Q', '1'] ['A', '1']])] := by
  refine ⟨?_, faqItemsLoop_eq_filterMap, ?_, rfl⟩
  · intro frags h
    cases frags with
    | nil => rfl
    | cons f rest =>
      have hloop := faqItemsLoop_nil_of_all_none (f :: rest) h
      show (match faqItemsLoop (f :: rest) with
            | [] => Json.obj []
            | items =>
              Json.obj
                [(codesOfStr "@context", Json.str (codesOfStr "https://schema.org")),
                 (codesOfStr "@type", Json.str (codesOfStr "FAQPage")),
                 (codesOfStr "mainEntity", Json.arr items)]) = Json.obj []
      rw [hloop]
  · intro frags j js hloop
    cases frags with
    | nil => cases hloop.symm.trans rfl
    | cons f rest =>
      show (match faqItemsLoop (f :: rest) with
            | [] => Json.obj []
            | items =>
              Json.obj
                [(codesOfStr "@context", Json.str (codesOfStr "https://schema.org")),
                 (codesOfStr "@type", Json.str (codesOfStr "FAQPage")),
                 (codesOfStr "mainEntity", Json.arr items)]) = _
      rw [hloop]

/-- C8 witness: a fragment with an unterminated h2 tag yields no pair, so
the single-fragment list produces the empty structure. -/
theorem generate_faq_schema_spec_witness :
    (∀ f ∈ ["<h2>"], extractFaqPair f = none)
    ∧ generate_faq_schema ["<h2>"] = Json.obj [] := by
  have hall : ∀ f ∈ ["<h2>"], extractFaqPair f = none := by
    intro f hf
    have he := List.mem_singleton.mp hf
    subst he
    rfl
  exact ⟨hall, generate_faq_schema_spec.1 ["<h2>"] hall⟩
